import Mathlib

/-!
Shallow embedding of the learning-progress engine of `src/App.js`
(UK area-codes drill trainer).

JS strings are modelled as `List Char`; the catalog entries keep the two
fields the engine reads (`code`, `place`) — the latitude/longitude fields
are consumed only by the map-rendering layer and are omitted.  The React
component state is one record (`GameState`); each event handler of the
source becomes a state-transition function.  `Math.random()`-driven
selection is derandomised by an index parameter `k`, reduced modulo the
pool size exactly where the source computes
`Math.floor(Math.random() * pending.length)`.  The `setTimeout` scheduled
by a correct answer under auto-next is modelled by a `pendingTimer` flag
plus an explicit `fireTimer` transition; the source never calls
`clearTimeout`, so no transition clears the flag except the firing itself.
A JS runtime exception (null dereference, `JSON.parse` failure) is
modelled by `Option`/`none`.
-/

abbrev Str := List Char

/-- A catalog entry (`{code, place, latitude, longitude}` in `App.js`);
the engine only ever reads `code` and `place`, the coordinates feed the
map layer and are omitted from the embedding. -/
structure Entry where
  code : Str
  place : Str
deriving DecidableEq, Repr

/-- Embeds `s.replace(/\s+/g, "")` — drop every whitespace character. -/
def stripWs (s : Str) : Str := s.filter (fun c => !c.isWhitespace)

/-- Embeds `s.toLowerCase()` (ASCII-adequate model, the catalog data is ASCII). -/
def lowerStr (s : Str) : Str := s.map Char.toLower

/-- Embeds `userInput.replace(/\s+/g, "").toLowerCase()` (App.js line 196). -/
def cleanWs (s : Str) : Str := lowerStr (stripWs s)

/-- JS `hay.includes(needle)`: `needle` occurs contiguously in `hay`. -/
def strContains (hay needle : Str) : Bool :=
  (List.range (hay.length + 1)).any (fun i =>
    decide ((hay.drop i).take needle.length = needle))

/-- Embeds `s.startsWith("0")` (App.js line 200). -/
def startsWith0 : Str → Bool
  | '0' :: _ => true
  | _ => false

/-- The `isCorrect` computation of `handleSubmit` (App.js lines 194–205),
parameterised by `mode`, the current question and the raw input.  The
source compares `mode === "nameToCode"`; any other mode string takes the
code-to-name branch. -/
def answerIsCorrect (mode : Str) (q : Entry) (input : Str) : Bool :=
  let inputClean := cleanWs input
  if mode = "nameToCode".toList then
    let answerClean := cleanWs q.code
    let inputClean2 := if startsWith0 inputClean then inputClean else '0' :: inputClean
    inputClean2 == answerClean
  else
    strContains (lowerStr q.place) inputClean

/-- JS object update `{ ...prev, [code]: next }` on an association list:
an existing key keeps its position and gets the new value, a new key is
appended. -/
def objSet (m : List (Str × Nat)) (k : Str) (v : Nat) : List (Str × Nat) :=
  if (m.lookup k).isSome then
    m.map (fun p => if p.1 = k then (k, v) else p)
  else
    m ++ [(k, v)]

/-- The full component state of `App` that the engine reads or writes. -/
structure GameState where
  areaCodes : List Entry
  mode : Str
  currentQuestion : Option Entry
  userInput : Str
  feedback : Str
  autoNext : Bool
  shouldZoom : Bool
  showAllDots : Bool
  dictStatus : List (Str × Nat)
  correctList : List Str
  reviewList : List Str
  mistakeCount : Nat
  pendingTimer : Bool
deriving DecidableEq, Repr

/-- Embeds `areaCodes.filter(item => !correctList.includes(item.code))`
(App.js lines 160–162). -/
def pendingPool (s : GameState) : List Entry :=
  s.areaCodes.filter (fun item => !s.correctList.contains item.code)

/-- Embeds `generateQuestion(specificPlace = null)` (App.js lines 145–171).
`k` derandomises `Math.floor(Math.random() * pending.length)`. -/
def generateQuestion (specific : Option Entry) (k : Nat) (s : GameState) :
    GameState :=
  let s1 := { s with feedback := [], userInput := [] }
  match specific with
  | some loc => { s1 with currentQuestion := some loc, shouldZoom := false }
  | none =>
    let pending := pendingPool s1
    if h : pending = [] then
      { s1 with feedback := "🎉 You have mastered EVERY UK code!".toList,
                currentQuestion := none }
    else
      { s1 with
          currentQuestion :=
            some (pending.get ⟨k % pending.length,
              Nat.mod_lt k (List.length_pos.mpr h)⟩),
          shouldZoom := true }

/-- Embeds `addToReviewList` (App.js lines 184–188). -/
def addToReviewList (code : Str) (s : GameState) : GameState :=
  if s.reviewList.contains code then s
  else { s with reviewList := s.reviewList ++ [code] }

/-- Embeds `handleSubmit` (App.js lines 190–225) after `e.preventDefault()`:
no-op without an active question; otherwise evaluates the answer and
updates mastery / review / mistake state.  The `setTimeout(() =>
generateQuestion(), 1000)` of the auto-next branch is modelled by raising
`pendingTimer`. -/
def handleSubmit (s : GameState) : GameState :=
  match s.currentQuestion with
  | none => s
  | some q =>
    if answerIsCorrect s.mode q s.userInput then
      let s1 :=
        if s.correctList.contains q.code then
          { s with feedback := "✅ Correct!".toList }
        else
          { s with feedback := "✅ Correct!".toList,
                   correctList := s.correctList ++ [q.code] }
      if s1.autoNext then { s1 with pendingTimer := true }
      else { s1 with
              feedback := "✅ Correct! Select next location on map.".toList }
    else
      addToReviewList q.code
        { s with feedback := "❌ Incorrect. Try again!".toList,
                 mistakeCount := s.mistakeCount + 1 }

/-- Embeds `revealAnswer` (App.js lines 227–235).  It reads
`currentQuestion.code` without a null guard, so with no active question it
raises a TypeError, modelled as `none`. -/
def revealAnswer (s : GameState) : Option GameState :=
  match s.currentQuestion with
  | none => none
  | some q =>
    some (addToReviewList q.code
      { s with
          mistakeCount := s.mistakeCount + 1,
          feedback := "The answer is: ".toList ++
            (if s.mode = "nameToCode".toList then q.code else q.place) })

/-- Embeds `resetProgress` (App.js lines 237–251), confirmed branch.  The
three `setState` calls only queue updates; they do not change the values
captured by the current render closure, so the `generateQuestion()` call
on line 249 still filters the pending pool against the PRE-reset
`correctList`.  The final state therefore carries the selection computed
over the old mastered list, with the cleared lists applied on top. -/
def resetProgress (k : Nat) (s : GameState) : GameState :=
  { generateQuestion none k s with
      correctList := [], reviewList := [], mistakeCount := 0 }

/-- Embeds `dictStatus[code] || 0` — the status read with its absent-default. -/
def readStatus (s : GameState) (code : Str) : Nat :=
  (s.dictStatus.lookup code).getD 0

/-- Embeds `cycleStatus` (App.js lines 254–259), after `e.stopPropagation()`. -/
def cycleStatus (code : Str) (s : GameState) : GameState :=
  let currentStatus := readStatus s code
  let nextStatus := (currentStatus + 1) % 3
  { s with dictStatus := objSet s.dictStatus code nextStatus }

/-- Embeds `jumpToLocation` (App.js lines 261–268); the popup side effect is
presentation-only. -/
def jumpToLocation (loc : Entry) (s : GameState) : GameState :=
  { s with currentQuestion := some loc, shouldZoom := true }

/-- Firing of the `setTimeout(() => generateQuestion(), 1000)` callback
scheduled by a correct answer under auto-next (App.js line 213).  The
source never calls `clearTimeout`, so only the firing itself consumes the
flag. -/
def fireTimer (k : Nat) (s : GameState) : GameState :=
  if s.pendingTimer then generateQuestion none k { s with pendingTimer := false }
  else s

/-- Opening brace character, written numerically. -/
def lbrace : Char := Char.ofNat 123

/-- Closing brace character, written numerically. -/
def rbrace : Char := Char.ofNat 125

/-- Scan the body of a JSON string literal after its opening quote:
return the characters up to the closing quote and the remaining input
(the stored codes of the app contain no escapes). -/
def scanStrLit : Str → Option (Str × Str)
  | [] => none
  | c :: r =>
    if c = '"' then some ([], r)
    else
      match scanStrLit r with
      | some (t, rest) => some (c :: t, rest)
      | none => none

/-- Parse the comma-separated items of a JSON array of string literals,
up to and including the closing bracket. -/
def parseArrItems : Nat → Str → Option (List Str)
  | 0, _ => none
  | _ + 1, [] => none
  | fuel + 1, c :: r =>
    if c = '"' then
      match scanStrLit r with
      | some (str, rest) =>
        match rest with
        | [']'] => some [str]
        | ',' :: more => (parseArrItems fuel more).map (fun l => str :: l)
        | _ => none
      | none => none
    else none

/-- Model of `JSON.parse` restricted to the array-of-strings texts that
`JSON.stringify` writes for the mastered / review lists; `none` models the
`SyntaxError` thrown on any other input. -/
def jsParseStrArray (s : Str) : Option (List Str) :=
  match s with
  | ['[', ']'] => some []
  | '[' :: rest => parseArrItems s.length rest
  | _ => none

/-- Digit run to a number. -/
def digitsToNat (s : Str) : Nat :=
  s.foldl (fun a c => a * 10 + (c.toNat - 48)) 0

/-- Parse the comma-separated `"key":digits` pairs of a JSON object, up
to and including the closing brace. -/
def parseObjItems : Nat → Str → Option (List (Str × Nat))
  | 0, _ => none
  | _ + 1, [] => none
  | fuel + 1, c :: r =>
    if c = '"' then
      match scanStrLit r with
      | some (key, rest) =>
        match rest with
        | ':' :: vrest =>
          let d := vrest.takeWhile Char.isDigit
          let after := vrest.dropWhile Char.isDigit
          if d = [] then none
          else
            match after with
            | [cb] =>
              if cb = rbrace then some [(key, digitsToNat d)] else none
            | ',' :: more =>
              (parseObjItems fuel more).map (fun l => (key, digitsToNat d) :: l)
            | _ => none
        | _ => none
      | none => none
    else none

/-- Model of `JSON.parse` restricted to the string-keyed object-of-digits
texts that `JSON.stringify` writes for the dictionary status; `none`
models the thrown `SyntaxError`. -/
def jsParseNatObj (s : Str) : Option (List (Str × Nat)) :=
  match s with
  | [] => none
  | c :: rest =>
    if c = lbrace then
      if rest = [rbrace] then some [] else parseObjItems s.length rest
    else none

/-- Model of `JSON.parse` restricted to the boolean texts that
`JSON.stringify` writes for the two flags; `none` models the thrown
`SyntaxError`. -/
def jsParseBool (s : Str) : Option Bool :=
  if s = "true".toList then some true
  else if s = "false".toList then some false
  else none

/-- Embeds `parseInt(s, 10)` for the non-negative values the app stores: skip
leading whitespace, read a digit run; `none` models `NaN`. -/
def parseIntJs (s : Str) : Option Nat :=
  let t := s.dropWhile Char.isWhitespace
  let d := t.takeWhile Char.isDigit
  if d = [] then none else some (digitsToNat d)

/-- State initializer for `uk_codes_mastered` (App.js lines 67–70):
`saved ? JSON.parse(saved) : []`.  `localStorage.getItem` yields `none`
when the key is absent; an empty stored string is falsy in JS and also
takes the default.  A result of `none` models the initializer throwing. -/
def loadMastered : Option Str → Option (List Str)
  | none => some []
  | some s => if s = [] then some [] else jsParseStrArray s

/-- State initializer for `uk_codes_review` (App.js lines 73–76). -/
def loadReview : Option Str → Option (List Str)
  | none => some []
  | some s => if s = [] then some [] else jsParseStrArray s

/-- State initializer for `uk_codes_mistakes` (App.js lines 79–82):
`saved ? parseInt(saved, 10) : 0`; `none` models the `NaN` result. -/
def loadMistakes : Option Str → Option Nat
  | none => some 0
  | some s => if s = [] then some 0 else parseIntJs s

/-- State initializer for `uk_codes_dict_status` (App.js lines 59–62):
`saved ? JSON.parse(saved) : \x7b\x7d`. -/
def loadDictStatus : Option Str → Option (List (Str × Nat))
  | none => some []
  | some s => if s = [] then some [] else jsParseNatObj s

/-- State initializer for `uk_codes_mode` (App.js lines 37–39):
`localStorage.getItem("uk_codes_mode") || "nameToCode"` — no parse, the
raw string is used, with the JS falsy default. -/
def loadMode : Option Str → Str
  | none => "nameToCode".toList
  | some s => if s = [] then "nameToCode".toList else s

/-- State initializer for `uk_codes_auto_next` (App.js lines 43–45):
`JSON.parse(localStorage.getItem("uk_codes_auto_next") || "true")`. -/
def loadAutoNext (st : Option Str) : Option Bool :=
  jsParseBool
    (match st with
     | none => "true".toList
     | some s => if s = [] then "true".toList else s)

/-- State initializer for `uk_codes_show_dots` (App.js lines 47–49). -/
def loadShowDots (st : Option Str) : Option Bool :=
  jsParseBool
    (match st with
     | none => "true".toList
     | some s => if s = [] then "true".toList else s)

/-- Modelled from the spec: the code-to-place acceptance rule as section
4.1 words it — "correct iff the normalized place name contains the
normalized input as a substring", with "normalize" defined there as
"strip all whitespace, lower-case" applied to both sides.  Stated for
comparison with `answerIsCorrect`, which the source drives. -/
def specCorrectCodeToPlace (q : Entry) (input : Str) : Bool :=
  strContains (cleanWs q.place) (cleanWs input)

/-- The discrete user/system actions that drive the engine
(view → engine contract of the component). -/
inductive UserAction where
  | submit
  | reveal
  | skip (k : Nat)
  | selectEntry (loc : Entry)
  | jump (loc : Entry)
  | cycle (code : Str)
  | reset (k : Nat)
  | setMode (m : Str)
  | setAutoNext (b : Bool)
  | setShowDots (b : Bool)
  | setInput (t : Str)
  | timerFire (k : Nat)
deriving DecidableEq, Repr

/-- One step of the engine: dispatch of each user action to the handler
of `App.js` that the corresponding UI element invokes.  A reveal with no
active question raises a TypeError before any (modelled) state change, so
`step` leaves the state as it was. -/
def step (a : UserAction) (s : GameState) : GameState :=
  match a with
  | .submit => handleSubmit s
  | .reveal => (revealAnswer s).getD s
  | .skip k => generateQuestion none k s
  | .selectEntry loc => generateQuestion (some loc) 0 s
  | .jump loc => jumpToLocation loc s
  | .cycle code => cycleStatus code s
  | .reset k => resetProgress k s
  | .setMode m => { s with mode := m }
  | .setAutoNext b => { s with autoNext := b }
  | .setShowDots b => { s with showAllDots := b }
  | .setInput t => { s with userInput := t }
  | .timerFire k => fireTimer k s

/-- Concrete catalog entry used by the concrete evaluations. -/
def eLeeds : Entry := ⟨"0113".toList, "Leeds".toList⟩

/-- Concrete catalog entry used by the concrete evaluations. -/
def eSheffield : Entry := ⟨"0114".toList, "Sheffield".toList⟩

/-- Concrete catalog entry used by the concrete evaluations. -/
def eNottingham : Entry := ⟨"0115".toList, "Nottingham".toList⟩

/-- A concrete session over a three-entry catalog, fresh progress, with
`eLeeds` active; the concrete evaluations below perturb it. -/
def baseState : GameState where
  areaCodes := [eLeeds, eSheffield, eNottingham]
  mode := "nameToCode".toList
  currentQuestion := some eLeeds
  userInput := []
  feedback := []
  autoNext := true
  shouldZoom := false
  showAllDots := true
  dictStatus := []
  correctList := []
  reviewList := []
  mistakeCount := 0
  pendingTimer := false

/-- A session with some progress in every tracking system, used by the
concrete evaluations. -/
def progState : GameState :=
  { baseState with
      correctList := ["0113".toList],
      reviewList := ["0114".toList],
      mistakeCount := 5,
      dictStatus := [("0115".toList, 2)] }

/-- The terminal session over the three-entry catalog: every code
mastered. -/
def allMasteredState : GameState :=
  { baseState with
      correctList := ["0113".toList, "0114".toList, "0115".toList] }

/-! ### Association-list lemmas for the dictionary-status object -/

theorem lookup_cons_pair (k a : Str) (b : Nat) (t : List (Str × Nat)) :
    List.lookup k ((a, b) :: t) = if k = a then some b else List.lookup k t := by
  by_cases h : k = a
  · subst h; simp [List.lookup]
  · have hb : (k == a) = false := beq_eq_false_iff_ne.mpr h
    simp [List.lookup, hb, h]

theorem lookup_mapUpd (m : List (Str × Nat)) (k : Str) (v : Nat)
    (h : (m.lookup k).isSome) :
    (m.map (fun p => if p.1 = k then (k, v) else p)).lookup k = some v := by
  induction m with
  | nil => simp [List.lookup] at h
  | cons p t ih =>
    obtain ⟨a, b⟩ := p
    rw [lookup_cons_pair] at h
    by_cases hak : k = a
    · simp [hak.symm, lookup_cons_pair]
    · rw [if_neg hak] at h
      have hak2 : ¬ a = k := fun hh => hak hh.symm
      simp only [List.map_cons]
      simp [hak2, lookup_cons_pair, hak]
      exact ih h

theorem lookup_appSingle (m : List (Str × Nat)) (k : Str) (v : Nat)
    (h : m.lookup k = none) :
    (m ++ [(k, v)]).lookup k = some v := by
  induction m with
  | nil => simp [lookup_cons_pair]
  | cons p t ih =>
    obtain ⟨a, b⟩ := p
    rw [lookup_cons_pair] at h
    by_cases hak : k = a
    · rw [if_pos hak] at h; cases h
    · rw [if_neg hak] at h
      simp only [List.cons_append]
      rw [lookup_cons_pair, if_neg hak]
      exact ih h

theorem lookup_objSet_self (m : List (Str × Nat)) (k : Str) (v : Nat) :
    (objSet m k v).lookup k = some v := by
  unfold objSet
  rcases hm : m.lookup k with _ | x
  · simp only [hm, Option.isSome_none, Bool.false_eq_true, if_false]
    exact lookup_appSingle m k v hm
  · simp only [hm, Option.isSome_some, if_true]
    exact lookup_mapUpd m k v (by rw [hm]; rfl)

theorem lookup_mapUpd_ne (m : List (Str × Nat)) (k : Str) (v : Nat) (c : Str)
    (h : c ≠ k) :
    (m.map (fun p => if p.1 = k then (k, v) else p)).lookup c = m.lookup c := by
  induction m with
  | nil => simp
  | cons p t ih =>
    obtain ⟨a, b⟩ := p
    by_cases hak : a = k
    · simp only [List.map_cons]
      simp [hak, lookup_cons_pair, h]
      exact ih
    · simp only [List.map_cons]
      simp [hak, lookup_cons_pair]
      by_cases hca : c = a <;> simp [hca, ih]

theorem lookup_appSingle_ne (m : List (Str × Nat)) (k : Str) (v : Nat) (c : Str)
    (h : c ≠ k) :
    (m ++ [(k, v)]).lookup c = m.lookup c := by
  induction m with
  | nil =>
    have hb : (c == k) = false := beq_eq_false_iff_ne.mpr h
    simp [List.lookup, hb]
  | cons p t ih =>
    obtain ⟨a, b⟩ := p
    simp only [List.cons_append, lookup_cons_pair]
    by_cases hca : c = a <;> simp [hca, ih]

theorem lookup_objSet_ne (m : List (Str × Nat)) (k : Str) (v : Nat) (c : Str)
    (h : c ≠ k) :
    (objSet m k v).lookup c = m.lookup c := by
  unfold objSet
  split
  · exact lookup_mapUpd_ne m k v c h
  · exact lookup_appSingle_ne m k v c h


/-! ### Selection lemmas -/

theorem genQ_none_iff (k : Nat) (s : GameState) :
    (generateQuestion none k s).currentQuestion = none ↔ pendingPool s = [] := by
  have hpp : pendingPool { s with feedback := [], userInput := [] }
      = pendingPool s := rfl
  simp only [generateQuestion]
  split
  next h => simpa using hpp ▸ h
  next h => simpa using hpp ▸ h

theorem genQ_some_mem (k : Nat) (s : GameState) (q : Entry)
    (h : (generateQuestion none k s).currentQuestion = some q) :
    q ∈ pendingPool s := by
  have hpp : pendingPool { s with feedback := [], userInput := [] }
      = pendingPool s := rfl
  simp only [generateQuestion] at h
  rw [← hpp]
  split at h
  · cases h
  · rw [Option.some_inj] at h
    rw [← h]
    exact List.get_mem _ _ _

theorem genQ_frame (specific : Option Entry) (k : Nat) (s : GameState) :
    (generateQuestion specific k s).correctList = s.correctList
    ∧ (generateQuestion specific k s).reviewList = s.reviewList
    ∧ (generateQuestion specific k s).mistakeCount = s.mistakeCount
    ∧ (generateQuestion specific k s).dictStatus = s.dictStatus
    ∧ (generateQuestion specific k s).mode = s.mode
    ∧ (generateQuestion specific k s).autoNext = s.autoNext
    ∧ (generateQuestion specific k s).areaCodes = s.areaCodes := by
  cases specific with
  | some loc => exact ⟨rfl, rfl, rfl, rfl, rfl, rfl, rfl⟩
  | none =>
    simp only [generateQuestion]
    split <;> exact ⟨rfl, rfl, rfl, rfl, rfl, rfl, rfl⟩

/-- Claim C1: `generateQuestion` without an explicit entry sets
`currentQuestion` to `none` exactly when the pending pool
(catalog minus mastered codes) is empty, and otherwise to a catalog entry
whose code is not in the mastered list; both branches are total. -/
theorem selectNextQuestion_spec (k : Nat) (s : GameState) :
    ((generateQuestion none k s).currentQuestion = none ↔ pendingPool s = [])
    ∧ (∀ q, (generateQuestion none k s).currentQuestion = some q →
        q ∈ s.areaCodes ∧ s.correctList.contains q.code = false) := by
  refine ⟨genQ_none_iff k s, fun q h => ?_⟩
  have hm := genQ_some_mem k s q h
  unfold pendingPool at hm
  rw [List.mem_filter] at hm
  exact ⟨hm.1, by simpa using hm.2⟩

/-- Witness for C1 at a concrete three-entry catalog with nothing mastered. -/
theorem selectNextQuestion_spec_witness :
    (generateQuestion none 0 baseState).currentQuestion = some eLeeds
    ∧ eLeeds ∈ baseState.areaCodes
    ∧ baseState.correctList.contains eLeeds.code = false :=
  ⟨by decide, (selectNextQuestion_spec 0 baseState).2 eLeeds (by decide)⟩

/-- Counterexample to C2 as stated: the source lower-cases the place name
but does not strip its whitespace, so for place "Milton Keynes" the input
"miltonkeynes" is rejected although the whitespace-stripped place contains
it as a substring. -/
theorem evaluate_codeToPlace_counterexample :
    answerIsCorrect ("codeToName".toList)
        ⟨"01908".toList, "Milton Keynes".toList⟩ ("miltonkeynes".toList) = false
    ∧ specCorrectCodeToPlace ⟨"01908".toList, "Milton Keynes".toList⟩
        ("miltonkeynes".toList) = true := by decide

/-- Claim C2 (amended): with direction codeToPlace the answer is correct
iff the lower-cased place name, whitespace preserved, contains the
whitespace-stripped lower-cased input as a substring; the Testtown
example of the spec holds. -/
theorem evaluate_codeToPlace_spec :
    (∀ (q : Entry) (input : Str),
      answerIsCorrect ("codeToName".toList) q input
        = strContains (lowerStr q.place) (cleanWs input))
    ∧ answerIsCorrect ("codeToName".toList)
        ⟨"01234".toList, "Testtown".toList⟩ ("test".toList) = true :=
  ⟨fun q input => rfl, by decide⟩

/-- Claim C3: with direction placeToCode both sides are whitespace-stripped
and lower-cased, a missing leading zero is prepended to the input, and the
answer is correct iff the results are equal; the "1234" example of the
spec holds. -/
theorem evaluate_placeToCode_spec :
    (∀ (q : Entry) (input : Str),
      answerIsCorrect ("nameToCode".toList) q input = true
        ↔ (if startsWith0 (cleanWs input) then cleanWs input
           else '0' :: cleanWs input) = cleanWs q.code)
    ∧ answerIsCorrect ("nameToCode".toList)
        ⟨"01234".toList, "Testtown".toList⟩ ("1234".toList) = true := by
  refine ⟨fun q input => ?_, by decide⟩
  show ((if startsWith0 (cleanWs input) then cleanWs input
         else '0' :: cleanWs input) == cleanWs q.code) = true ↔ _
  exact beq_iff_eq

/-- Counterexample to C4 as stated: resetting from the all-mastered
state clears the progress, yet no new question is selected — the
`generateQuestion()` inside `resetProgress` reads the pre-reset mastered
list through the render closure, finds an empty pending pool and sets
`currentQuestion` to null, although after the clearing the whole
(nonempty) catalog is pending again. -/
theorem resetProgress_counterexample :
    (resetProgress 0 allMasteredState).correctList = []
    ∧ allMasteredState.areaCodes ≠ []
    ∧ (resetProgress 0 allMasteredState).currentQuestion = none := by decide

/-- Claim C4 (amended): the confirmed reset clears the mastered list, the
review list and the mistake counter, leaves the dictionary status
untouched, and immediately runs question selection — but the selection
still reads the pre-reset mastered list through the render closure, so it
yields a question exactly when the pre-reset pending pool was nonempty,
and any selected question is a catalog entry that was unmastered before
the reset. -/
theorem resetProgress_spec (k : Nat) (s : GameState) :
    (resetProgress k s).correctList = []
    ∧ (resetProgress k s).reviewList = []
    ∧ (resetProgress k s).mistakeCount = 0
    ∧ (resetProgress k s).dictStatus = s.dictStatus
    ∧ (resetProgress k s).currentQuestion
        = (generateQuestion none k s).currentQuestion
    ∧ ((resetProgress k s).currentQuestion = none ↔ pendingPool s = [])
    ∧ (∀ q, (resetProgress k s).currentQuestion = some q →
        q ∈ s.areaCodes ∧ s.correctList.contains q.code = false) := by
  refine ⟨rfl, rfl, rfl, (genQ_frame none k s).2.2.2.1, rfl,
    genQ_none_iff k s, ?_⟩
  intro q h
  have hm := genQ_some_mem k s q h
  unfold pendingPool at hm
  rw [List.mem_filter] at hm
  exact ⟨hm.1, by simpa using hm.2⟩

/-- Witness for C4 at a session with one mastered code: the reset selects
a question from the pre-reset pending pool. -/
theorem resetProgress_spec_witness :
    (resetProgress 0 progState).currentQuestion = some eSheffield
    ∧ eSheffield ∈ progState.areaCodes
    ∧ progState.correctList.contains eSheffield.code = false :=
  ⟨by decide, (resetProgress_spec 0 progState).2.2.2.2.2.2 eSheffield (by decide)⟩

/-- Claim C5: an incorrect submission with an active question bumps the
mistake counter by exactly one, adds the code to the review list only if
absent, and leaves the current question in place for a retry. -/
theorem submit_incorrect_spec (s : GameState) (q : Entry)
    (hq : s.currentQuestion = some q)
    (hc : answerIsCorrect s.mode q s.userInput = false) :
    (handleSubmit s).mistakeCount = s.mistakeCount + 1
    ∧ (handleSubmit s).reviewList
        = (if s.reviewList.contains q.code then s.reviewList
           else s.reviewList ++ [q.code])
    ∧ q.code ∈ (handleSubmit s).reviewList
    ∧ (handleSubmit s).currentQuestion = s.currentQuestion := by
  have key : handleSubmit s = addToReviewList q.code
      { s with feedback := "❌ Incorrect. Try again!".toList,
               mistakeCount := s.mistakeCount + 1 } := by
    unfold handleSubmit
    rw [hq]
    simp only [hc, Bool.false_eq_true, if_false]
  rw [key]
  unfold addToReviewList
  by_cases hm : s.reviewList.contains q.code
  · rw [if_pos hm, if_pos hm]
    exact ⟨rfl, rfl, List.mem_of_elem_eq_true hm, rfl⟩
  · rw [if_neg hm, if_neg hm]
    exact ⟨rfl, rfl, by simp, rfl⟩

/-- Witness for C5: the empty input is an incorrect answer for the active
question of `baseState`. -/
theorem submit_incorrect_spec_witness :
    (handleSubmit baseState).mistakeCount = baseState.mistakeCount + 1
    ∧ eLeeds.code ∈ (handleSubmit baseState).reviewList
    ∧ (handleSubmit baseState).currentQuestion = baseState.currentQuestion := by
  have h := submit_incorrect_spec baseState eLeeds rfl (by decide)
  exact ⟨h.1, h.2.2.1, h.2.2.2⟩

/-! ### Dictionary status -/

theorem readStatus_cycle (s : GameState) (code : Str) :
    readStatus (cycleStatus code s) code = (readStatus s code + 1) % 3 := by
  show (List.lookup code
    (objSet s.dictStatus code (((s.dictStatus.lookup code).getD 0 + 1) % 3))).getD 0
    = ((s.dictStatus.lookup code).getD 0 + 1) % 3
  rw [lookup_objSet_self]
  rfl

/-- Claim C6: `cycleStatus` advances the status of the given code from its
current value (default 0 when absent) to `(value + 1) % 3`, leaves the
mastered list, review list, mistake counter, current question and every
status of every other code unchanged, and three applications restore the original
status of the code. -/
theorem cycleStatus_spec (code : Str) (s : GameState)
    (h : readStatus s code < 3) :
    readStatus (cycleStatus code s) code = (readStatus s code + 1) % 3
    ∧ (cycleStatus code s).correctList = s.correctList
    ∧ (cycleStatus code s).reviewList = s.reviewList
    ∧ (cycleStatus code s).mistakeCount = s.mistakeCount
    ∧ (cycleStatus code s).currentQuestion = s.currentQuestion
    ∧ (∀ c, c ≠ code → readStatus (cycleStatus code s) c = readStatus s c)
    ∧ readStatus (cycleStatus code (cycleStatus code (cycleStatus code s))) code
        = readStatus s code := by
  refine ⟨readStatus_cycle s code, rfl, rfl, rfl, rfl, ?_, ?_⟩
  · intro c hc
    show (List.lookup c
      (objSet s.dictStatus code (((s.dictStatus.lookup code).getD 0 + 1) % 3))).getD 0
      = (s.dictStatus.lookup c).getD 0
    rw [lookup_objSet_ne _ _ _ _ hc]
  · rw [readStatus_cycle, readStatus_cycle, readStatus_cycle]
    omega

/-- Witness for C6 at a code whose stored status is 2. -/
theorem cycleStatus_spec_witness :
    readStatus progState ("0115".toList) < 3
    ∧ readStatus (cycleStatus ("0115".toList) progState) ("0115".toList)
        = (readStatus progState ("0115".toList) + 1) % 3 :=
  ⟨by decide, (cycleStatus_spec ("0115".toList) progState (by decide)).1⟩

/-! ### Mastered-set evolution -/

theorem addToReviewList_frame (code : Str) (s : GameState) :
    (addToReviewList code s).correctList = s.correctList
    ∧ (addToReviewList code s).mistakeCount = s.mistakeCount
    ∧ (addToReviewList code s).currentQuestion = s.currentQuestion
    ∧ (addToReviewList code s).dictStatus = s.dictStatus := by
  unfold addToReviewList
  split <;> exact ⟨rfl, rfl, rfl, rfl⟩

/-- Claim C7: across every engine operation, the mastered list changes
only by appending the code of the active question on a correct answer that was
not yet mastered, or by being cleared on reset; every other action leaves
it untouched.  Monotone growth between resets and "every member was once
the subject of a correct answer" follow step by step. -/
theorem masteredSet_evolution (a : UserAction) (s : GameState) :
    (step a s).correctList = s.correctList
    ∨ (∃ q, s.currentQuestion = some q
        ∧ answerIsCorrect s.mode q s.userInput = true
        ∧ s.correctList.contains q.code = false
        ∧ (step a s).correctList = s.correctList ++ [q.code])
    ∨ ((∃ k, a = UserAction.reset k) ∧ (step a s).correctList = []) := by
  cases a with
  | submit =>
    cases hq : s.currentQuestion with
    | none =>
      left
      show (handleSubmit s).correctList = _
      unfold handleSubmit
      rw [hq]
    | some q =>
      cases hc : answerIsCorrect s.mode q s.userInput with
      | true =>
        cases hm : s.correctList.contains q.code with
        | true =>
          left
          show (handleSubmit s).correctList = _
          unfold handleSubmit
          rw [hq]
          simp only [hc, hm, eq_self_iff_true, if_true]
          split <;> rfl
        | false =>
          right; left
          refine ⟨q, rfl, hc, hm, ?_⟩
          show (handleSubmit s).correctList = _
          unfold handleSubmit
          rw [hq]
          simp only [hc, hm, eq_self_iff_true, if_true, Bool.false_eq_true,
            if_false]
          split <;> rfl
      | false =>
        left
        show (handleSubmit s).correctList = _
        unfold handleSubmit
        rw [hq]
        simp only [hc, Bool.false_eq_true, if_false]
        exact (addToReviewList_frame q.code _).1
  | reveal =>
    left
    show ((revealAnswer s).getD s).correctList = _
    cases hq : s.currentQuestion with
    | none =>
      unfold revealAnswer
      rw [hq]
      rfl
    | some q =>
      unfold revealAnswer
      rw [hq]
      exact (addToReviewList_frame q.code _).1
  | skip k => exact Or.inl (genQ_frame none k s).1
  | selectEntry loc => exact Or.inl (genQ_frame (some loc) 0 s).1
  | jump loc => exact Or.inl rfl
  | cycle code => exact Or.inl rfl
  | reset k =>
    right; right
    exact ⟨⟨k, rfl⟩, rfl⟩
  | setMode m => exact Or.inl rfl
  | setAutoNext b => exact Or.inl rfl
  | setShowDots b => exact Or.inl rfl
  | setInput t => exact Or.inl rfl
  | timerFire k =>
    left
    show (fireTimer k s).correctList = _
    unfold fireTimer
    by_cases hp : s.pendingTimer
    · rw [if_pos hp]
      exact (genQ_frame none k _).1
    · rw [if_neg hp]

/-! ### Persistence loading -/

/-- Counterexample to C8 as stated: a corrupt stored value for the
mastered-set key is not treated as absent — the `JSON.parse` call of the initializer fails (the exception propagates, modelled `none`)
instead of falling back to the empty-list default used for an absent
key. -/
theorem persisted_corrupt_counterexample :
    loadMastered (some ("garbage".toList)) = none
    ∧ loadMastered none = some []
    ∧ loadMastered (some ("garbage".toList)) ≠ loadMastered none := by decide

/-- Claim C8 (amended): an absent persisted value falls back to the
documented default for every persisted key, but a corrupt value is not
treated as absent: the `JSON.parse` failure propagates for the
JSON-encoded keys and `parseInt` yields NaN for the mistake counter
(the quiz-direction key is used raw, without parsing). -/
theorem persisted_defaults_spec :
    loadMastered none = some []
    ∧ loadReview none = some []
    ∧ loadMistakes none = some 0
    ∧ loadDictStatus none = some []
    ∧ loadMode none = "nameToCode".toList
    ∧ loadAutoNext none = some true
    ∧ loadShowDots none = some true
    ∧ loadMastered (some ("garbage".toList)) = none
    ∧ loadReview (some ("garbage".toList)) = none
    ∧ loadDictStatus (some ("garbage".toList)) = none
    ∧ loadAutoNext (some ("garbage".toList)) = none
    ∧ loadShowDots (some ("garbage".toList)) = none
    ∧ loadMistakes (some ("garbage".toList)) = none := by decide

/-! ### Auto-advance timer -/

/-- Claim C9 evidence: the source schedules the auto-advance callback with
`setTimeout` and never cancels it.  Concrete trace: a correct answer on
`eLeeds` schedules the timer; a manual skip then selects `eSheffield`;
the stale callback still fires and replaces it with `eNottingham`. -/
theorem autoAdvance_not_cancelled :
    (handleSubmit { baseState with userInput := "0113".toList }).pendingTimer
      = true
    ∧ (step (UserAction.skip 0)
        (step UserAction.submit
          { baseState with userInput := "0113".toList })).currentQuestion
      = some eSheffield
    ∧ (step (UserAction.skip 0)
        (step UserAction.submit
          { baseState with userInput := "0113".toList })).pendingTimer = true
    ∧ (step (UserAction.timerFire 1)
        (step (UserAction.skip 0)
          (step UserAction.submit
            { baseState with userInput := "0113".toList }))).currentQuestion
      = some eNottingham := by decide

/-! ### Reveal-path guard -/

/-- Claim C10: the submit path is a no-op without an active question, but
the reveal path is unguarded — with `currentQuestion = null` it
dereferences the null question (reads `.code`) and crashes, modelled by
`revealAnswer` returning `none`. -/
theorem revealAnswer_null_unguarded (s : GameState)
    (h : s.currentQuestion = none) :
    handleSubmit s = s ∧ revealAnswer s = none := by
  constructor
  · unfold handleSubmit
    rw [h]
  · unfold revealAnswer
    rw [h]

/-- Witness for C10 at the terminal all-mastered session, where no
question is active. -/
theorem revealAnswer_null_unguarded_witness :
    handleSubmit { baseState with currentQuestion := none }
      = { baseState with currentQuestion := none }
    ∧ revealAnswer { baseState with currentQuestion := none } = none :=
  revealAnswer_null_unguarded { baseState with currentQuestion := none } rfl
